import Mathlib

/-!
# n-body simulator: the physics kernel of `src/SDL/sim.cpp`

A shallow embedding of `Vector2D`, `Circle`, `gravacc` and the update loop of
`main`, with `double` read as a real number (exact arithmetic, no rounding,
no infinities or NaN) and `unsigned long long` read as a natural number.
`std::vector<Circle>` is a `List Circle`; the address test
`&circle != &IIcircle` of the update loop is the index test `i ≠ j`.
-/

namespace NBody

noncomputable section

/-- The constant `G` of sim.cpp:13, `const double G = 6.67e-11`. -/
def G : ℝ := 6.67e-11

/-- The struct `Vector2D` of sim.cpp:46-65. -/
@[ext]
structure Vector2D where
  x : ℝ
  y : ℝ

namespace Vector2D

/-- The default constructor `Vector2D(double x = 0, double y = 0)`. -/
instance : Zero Vector2D := ⟨⟨0, 0⟩⟩

/-- The member `operator+` (sim.cpp:49-51). -/
instance : Add Vector2D := ⟨fun v other => ⟨v.x + other.x, v.y + other.y⟩⟩

/-- The member `operator-` (sim.cpp:52-54). -/
instance : Sub Vector2D := ⟨fun v other => ⟨v.x - other.x, v.y - other.y⟩⟩

/-- The member `operator*(double scalar)` (sim.cpp:55-57). -/
instance : HMul Vector2D ℝ Vector2D := ⟨fun v scalar => ⟨v.x * scalar, v.y * scalar⟩⟩

/-- The member `magnitude` (sim.cpp:58-60): `abs(std::sqrt(x * x + y * y))`,
with `abs` the absolute value of a `double`. -/
def magnitude (v : Vector2D) : ℝ := |Real.sqrt (v.x * v.x + v.y * v.y)|

/-- Componentwise addition with the zero vector is a commutative monoid, so
that contributions can be summed over a list or a finite set of indices. -/
instance : AddCommMonoid Vector2D where
  add := (· + ·)
  zero := 0
  add_assoc u v w := Vector2D.ext (add_assoc u.x v.x w.x) (add_assoc u.y v.y w.y)
  zero_add v := Vector2D.ext (zero_add v.x) (zero_add v.y)
  add_zero v := Vector2D.ext (add_zero v.x) (add_zero v.y)
  add_comm v w := Vector2D.ext (add_comm v.x w.x) (add_comm v.y w.y)
  nsmul := nsmulRec

end Vector2D

/-- The struct `Circle` of sim.cpp:68-74. -/
@[ext]
structure Circle where
  position : Vector2D
  velocity : Vector2D
  acc : Vector2D
  radius : ℝ
  mass : ℕ

/-- The default constructor `Circle()`: every member zero. -/
instance : Inhabited Circle := ⟨⟨0, 0, 0, 0, 0⟩⟩

/-- The function `gravacc` of sim.cpp:108-117: the acceleration of the first
circle because of the second. The division `scnd.mass / pow(distance, 2)` is
the division of the reals, which gives 0 for a zero divisor; `gravaccChecked`
below makes the zero divisor visible. -/
def gravacc (frst scnd : Circle) : Vector2D :=
  let direction := scnd.position - frst.position
  let distance := direction.magnitude
  let a : ℝ :=
    if distance < frst.radius ∨ distance < scnd.radius then 0
    else G * ((scnd.mass : ℝ) / distance ^ 2)
  direction * a

/-- The function `gravacc` with its one division checked: `none` when the
else branch of sim.cpp:115 is reached with `pow(distance, 2)` equal to zero
(where IEEE arithmetic gives an infinity or a NaN), the returned vector
otherwise. -/
def gravaccChecked (frst scnd : Circle) : Option Vector2D :=
  let direction := scnd.position - frst.position
  let distance := direction.magnitude
  if distance < frst.radius ∨ distance < scnd.radius then
    some (direction * (0 : ℝ))
  else if distance ^ 2 = 0 then none
  else some (direction * (G * ((scnd.mass : ℝ) / distance ^ 2)))

/-- The inner loop of the update (sim.cpp:228-233) for the circle at index
`i`: every circle at another index adds `gravacc(circle, IIcircle)` to the
accumulator, which starts at `(0, 0)`. -/
def accumulate (circles : List Circle) (i : ℕ) (circle : Circle) : Vector2D :=
  circles.enum.foldl
    (fun acceleration (p : ℕ × Circle) =>
      if i ≠ p.1 then gravacc circle p.2 + acceleration else acceleration)
    (0 : Vector2D)

/-- The three assignments that end the outer loop body (sim.cpp:234-236):
`circle.acc = acceleration`, `circle.velocity = acceleration + circle.velocity`,
`circle.position = circle.velocity + circle.position`, in this order. -/
def advance (c : Circle) (acceleration : Vector2D) : Circle :=
  let circle : Circle := { c with acc := acceleration }
  let circle : Circle := { circle with velocity := acceleration + circle.velocity }
  let circle : Circle := { circle with position := circle.velocity + circle.position }
  circle

/-- One pass of the outer loop body (sim.cpp:227-237) for the circle at index
`i`: the inner loop runs over the list as it is now, and the circle is
written back in place. -/
def updateCircle (circles : List Circle) (i : ℕ) : List Circle :=
  match circles[i]? with
  | none => circles
  | some c => circles.set i (advance c (accumulate circles i c))

/-- The outer loop `for (auto& circle : circles)` of sim.cpp:227-237 after
its first `m` passes. -/
def sweep (circles : List Circle) (m : ℕ) : List Circle :=
  (List.range m).foldl updateCircle circles

/-- The outer loop `for (auto& circle : circles)` of sim.cpp:227-237: one
running integration step, a pass for every index of the list in order. -/
def update (circles : List Circle) : List Circle :=
  sweep circles circles.length

/-- The update section of one frame of the main loop (sim.cpp:225-238):
`if(run) { ... }`. -/
def frame (run : Bool) (circles : List Circle) : List Circle :=
  if run then update circles else circles

/-- The update sections of `n` successive frames with the run flag fixed. -/
def frames (run : Bool) : ℕ → List Circle → List Circle
  | 0, circles => circles
  | n + 1, circles => frames run n (frame run circles)

/-- The two bodies of the end-to-end scenario: mass 1e9, radius 10, zero
velocity, the first at the origin. -/
def bodyA : Circle := ⟨⟨0, 0⟩, ⟨0, 0⟩, ⟨0, 0⟩, 10, 1000000000⟩

/-- The second body of the scenario, 100 away from the first along the x-axis. -/
def bodyB : Circle := ⟨⟨100, 0⟩, ⟨0, 0⟩, ⟨0, 0⟩, 10, 1000000000⟩

/-- A third body, 100 away from the first along the y-axis, of mass 2e9 and
radius 20. -/
def bodyC : Circle := ⟨⟨0, 100⟩, ⟨0, 0⟩, ⟨0, 0⟩, 20, 2000000000⟩

/-! ## Vector algebra -/

namespace Vector2D

@[simp] theorem zero_x : (0 : Vector2D).x = 0 := rfl
@[simp] theorem zero_y : (0 : Vector2D).y = 0 := rfl
@[simp] theorem add_x (v w : Vector2D) : (v + w).x = v.x + w.x := rfl
@[simp] theorem add_y (v w : Vector2D) : (v + w).y = v.y + w.y := rfl
@[simp] theorem sub_x (v w : Vector2D) : (v - w).x = v.x - w.x := rfl
@[simp] theorem sub_y (v w : Vector2D) : (v - w).y = v.y - w.y := rfl
@[simp] theorem mul_x (v : Vector2D) (s : ℝ) : (v * s).x = v.x * s := rfl
@[simp] theorem mul_y (v : Vector2D) (s : ℝ) : (v * s).y = v.y * s := rfl

theorem mk_zero : (⟨0, 0⟩ : Vector2D) = 0 := rfl

theorem mul_zero_scalar (v : Vector2D) : v * (0 : ℝ) = 0 := by
  ext <;> simp

theorem sum_squares_nonneg (v : Vector2D) : 0 ≤ v.x * v.x + v.y * v.y :=
  add_nonneg (mul_self_nonneg _) (mul_self_nonneg _)

theorem magnitude_eq_sqrt (v : Vector2D) :
    v.magnitude = Real.sqrt (v.x * v.x + v.y * v.y) := by
  unfold magnitude
  exact abs_of_nonneg (Real.sqrt_nonneg _)

theorem magnitude_nonneg (v : Vector2D) : 0 ≤ v.magnitude := by
  unfold magnitude
  exact abs_nonneg _

theorem magnitude_sq (v : Vector2D) : v.magnitude ^ 2 = v.x * v.x + v.y * v.y := by
  rw [magnitude_eq_sqrt]
  exact Real.sq_sqrt (sum_squares_nonneg v)

theorem magnitude_eq_zero_iff (v : Vector2D) : v.magnitude = 0 ↔ v = 0 := by
  rw [magnitude_eq_sqrt, Real.sqrt_eq_zero (sum_squares_nonneg v)]
  constructor
  · intro h
    have hx : v.x = 0 := by nlinarith [mul_self_nonneg v.x, mul_self_nonneg v.y]
    have hy : v.y = 0 := by nlinarith [mul_self_nonneg v.x, mul_self_nonneg v.y]
    ext <;> simp [hx, hy]
  · intro h
    simp [h]

theorem magnitude_mul (v : Vector2D) (s : ℝ) : (v * s).magnitude = v.magnitude * |s| := by
  rw [magnitude_eq_sqrt, magnitude_eq_sqrt, ← Real.sqrt_sq_eq_abs, ← Real.sqrt_mul (sum_squares_nonneg v)]
  congr 1
  simp only [mul_x, mul_y]
  ring

theorem magnitude_sub_comm (v w : Vector2D) : (v - w).magnitude = (w - v).magnitude := by
  rw [magnitude_eq_sqrt, magnitude_eq_sqrt]
  congr 1
  simp only [sub_x, sub_y]
  ring

theorem magnitude_x_axis (x : ℝ) : (⟨x, 0⟩ : Vector2D).magnitude = |x| := by
  rw [magnitude_eq_sqrt]
  simp only [mul_zero, add_zero]
  rw [← sq, Real.sqrt_sq_eq_abs]

theorem sub_eq_zero_iff (v w : Vector2D) : v - w = 0 ↔ v = w := by
  constructor
  · intro h
    have hx := congrArg Vector2D.x h
    have hy := congrArg Vector2D.y h
    simp only [sub_x, sub_y, zero_x, zero_y] at hx hy
    ext <;> linarith
  · intro h
    subst h
    ext <;> simp

end Vector2D

/-! ## The pairwise kernel `gravacc` -/

theorem gravacc_of_cutoff (frst scnd : Circle)
    (h : (scnd.position - frst.position).magnitude < frst.radius ∨
      (scnd.position - frst.position).magnitude < scnd.radius) :
    gravacc frst scnd = 0 := by
  unfold gravacc
  simp only [if_pos h]
  exact Vector2D.mul_zero_scalar _

theorem gravacc_of_not_cutoff (frst scnd : Circle)
    (h : ¬ ((scnd.position - frst.position).magnitude < frst.radius ∨
      (scnd.position - frst.position).magnitude < scnd.radius)) :
    gravacc frst scnd = (scnd.position - frst.position) *
      (G * ((scnd.mass : ℝ) / (scnd.position - frst.position).magnitude ^ 2)) := by
  unfold gravacc
  simp only [if_neg h]

theorem G_pos : 0 < G := by
  unfold G
  norm_num

theorem scenario_distance : (bodyB.position - bodyA.position).magnitude = 100 := by
  have h : bodyB.position - bodyA.position = ⟨100, 0⟩ := by
    ext <;> simp [bodyA, bodyB]
  rw [h, Vector2D.magnitude_x_axis]
  norm_num

/-- C2. When the separation of two bodies is less than the radius of the first
or less than the radius of the second, `gravacc` returns exactly the zero
vector `(0, 0)`, whatever the masses are. -/
theorem gravacc_overlap_zero (frst scnd : Circle)
    (h : (scnd.position - frst.position).magnitude < frst.radius ∨
      (scnd.position - frst.position).magnitude < scnd.radius) :
    gravacc frst scnd = ⟨0, 0⟩ :=
  gravacc_of_cutoff frst scnd h

/-- C2, at a concrete input: two bodies of radius 10 and different masses, 5
apart on the x-axis. -/
theorem gravacc_overlap_zero_witness :
    ((⟨⟨5, 0⟩, ⟨1, 2⟩, 0, 10, 7⟩ : Circle).position
        - (⟨⟨0, 0⟩, 0, 0, 10, 1000000000⟩ : Circle).position).magnitude < 10 ∧
      gravacc ⟨⟨0, 0⟩, 0, 0, 10, 1000000000⟩ ⟨⟨5, 0⟩, ⟨1, 2⟩, 0, 10, 7⟩ = ⟨0, 0⟩ := by
  have h : ((⟨⟨5, 0⟩, ⟨1, 2⟩, 0, 10, 7⟩ : Circle).position
      - (⟨⟨0, 0⟩, 0, 0, 10, 1000000000⟩ : Circle).position).magnitude < 10 := by
    have e : (⟨⟨5, 0⟩, ⟨1, 2⟩, 0, 10, 7⟩ : Circle).position
        - (⟨⟨0, 0⟩, 0, 0, 10, 1000000000⟩ : Circle).position = ⟨5, 0⟩ := by
      ext <;> simp
    rw [e, Vector2D.magnitude_x_axis]
    norm_num
  exact ⟨h, gravacc_overlap_zero _ _ (Or.inl h)⟩

theorem gravacc_magnitude_of_not_cutoff (frst scnd : Circle)
    (hpos : 0 < (scnd.position - frst.position).magnitude)
    (h : ¬ ((scnd.position - frst.position).magnitude < frst.radius ∨
      (scnd.position - frst.position).magnitude < scnd.radius)) :
    (gravacc frst scnd).magnitude =
      G * (scnd.mass : ℝ) / (scnd.position - frst.position).magnitude := by
  rw [gravacc_of_not_cutoff frst scnd h, Vector2D.magnitude_mul]
  have ha : 0 ≤ G * ((scnd.mass : ℝ) / (scnd.position - frst.position).magnitude ^ 2) :=
    mul_nonneg G_pos.le (div_nonneg (Nat.cast_nonneg _) (by positivity))
  rw [abs_of_nonneg ha]
  field_simp
  ring

/-- C3. For bodies `i`, `j` with `dist = |position(j) - position(i)| > 0` and
`dist` not below either radius, `gravacc(i, j)` is the difference vector `d`
scaled by the non-negative scalar `a = G * mass(j) / dist^2`; its magnitude is
`a * dist`, which is `G * mass(j) / dist`, and this differs from `a` whenever
`mass(j)` is nonzero and `dist` is not 1. -/
theorem gravacc_scaled_difference (i j : Circle)
    (hpos : 0 < (j.position - i.position).magnitude)
    (hi : i.radius ≤ (j.position - i.position).magnitude)
    (hj : j.radius ≤ (j.position - i.position).magnitude) :
    gravacc i j = (j.position - i.position) *
        (G * (j.mass : ℝ) / (j.position - i.position).magnitude ^ 2) ∧
      0 ≤ G * (j.mass : ℝ) / (j.position - i.position).magnitude ^ 2 ∧
      (gravacc i j).magnitude =
        G * (j.mass : ℝ) / (j.position - i.position).magnitude ^ 2
          * (j.position - i.position).magnitude ∧
      (gravacc i j).magnitude = G * (j.mass : ℝ) / (j.position - i.position).magnitude ∧
      ((gravacc i j).magnitude = G * (j.mass : ℝ) / (j.position - i.position).magnitude ^ 2 ↔
        j.mass = 0 ∨ (j.position - i.position).magnitude = 1) := by
  have hcut : ¬ ((j.position - i.position).magnitude < i.radius ∨
      (j.position - i.position).magnitude < j.radius) := by
    rintro (h | h) <;> linarith
  have hmag := gravacc_magnitude_of_not_cutoff i j hpos hcut
  have hne : (j.position - i.position).magnitude ≠ 0 := hpos.ne'
  refine ⟨?_, ?_, ?_, hmag, ?_⟩
  · rw [gravacc_of_not_cutoff i j hcut, mul_div_assoc]
  · exact div_nonneg (mul_nonneg G_pos.le (Nat.cast_nonneg _)) (by positivity)
  · rw [hmag]
    field_simp
    ring
  · rw [hmag]
    generalize (j.position - i.position).magnitude = d at hpos hne
    have hG : G ≠ 0 := G_pos.ne'
    constructor
    · intro h
      rw [div_eq_div_iff hne (pow_ne_zero 2 hne)] at h
      have h1 : G * (j.mass : ℝ) * (d - 1) * d = 0 := by linear_combination h
      have h2 : G * (j.mass : ℝ) * (d - 1) = 0 :=
        (mul_eq_zero.mp h1).resolve_right hne
      rcases mul_eq_zero.mp h2 with h3 | h3
      · rcases mul_eq_zero.mp h3 with h4 | h4
        · exact absurd h4 hG
        · exact Or.inl (by exact_mod_cast h4)
      · exact Or.inr (by linarith)
    · rintro (h | h)
      · simp [h]
      · simp [h]

/-- C3, at the bodies of the scenario: 100 apart, both radii 10. -/
theorem gravacc_scaled_difference_witness :
    (0 < (bodyB.position - bodyA.position).magnitude ∧
      bodyA.radius ≤ (bodyB.position - bodyA.position).magnitude ∧
      bodyB.radius ≤ (bodyB.position - bodyA.position).magnitude) ∧
    gravacc bodyA bodyB = (bodyB.position - bodyA.position) *
      (G * (bodyB.mass : ℝ) / (bodyB.position - bodyA.position).magnitude ^ 2) ∧
    (gravacc bodyA bodyB).magnitude =
      G * (bodyB.mass : ℝ) / (bodyB.position - bodyA.position).magnitude := by
  have h1 : 0 < (bodyB.position - bodyA.position).magnitude := by
    rw [scenario_distance]; norm_num
  have h2 : bodyA.radius ≤ (bodyB.position - bodyA.position).magnitude := by
    rw [scenario_distance]; norm_num [bodyA]
  have h3 : bodyB.radius ≤ (bodyB.position - bodyA.position).magnitude := by
    rw [scenario_distance]; norm_num [bodyB]
  have h := gravacc_scaled_difference bodyA bodyB h1 h2 h3
  exact ⟨⟨h1, h2, h3⟩, h.1, h.2.2.2.1⟩

/-- C1, refuted as stated: the two bodies of the scenario (mass 1e9, radius 10,
100 apart on the x-axis) do not overlap and the second has nonzero mass, but
the magnitude of `gravacc` is `G * 1e9 / 100`, not `G * 1e9 * 100`. -/
theorem gravacc_magnitude_times_distance_counterexample :
    (¬ (bodyB.position - bodyA.position).magnitude < bodyA.radius ∧
      ¬ (bodyB.position - bodyA.position).magnitude < bodyB.radius ∧
      bodyB.mass ≠ 0) ∧
    (gravacc bodyA bodyB).magnitude = G * 1000000000 / 100 ∧
    (gravacc bodyA bodyB).magnitude ≠
      G * (bodyB.mass : ℝ) * (bodyB.position - bodyA.position).magnitude := by
  have hA : ¬ (bodyB.position - bodyA.position).magnitude < bodyA.radius := by
    rw [scenario_distance]; norm_num [bodyA]
  have hB : ¬ (bodyB.position - bodyA.position).magnitude < bodyB.radius := by
    rw [scenario_distance]; norm_num [bodyB]
  have hpos : 0 < (bodyB.position - bodyA.position).magnitude := by
    rw [scenario_distance]; norm_num
  have hmag := gravacc_magnitude_of_not_cutoff bodyA bodyB hpos (not_or.mpr ⟨hA, hB⟩)
  rw [scenario_distance] at hmag
  have hmass : (bodyB.mass : ℝ) = 1000000000 := by norm_num [bodyB]
  refine ⟨⟨hA, hB, by norm_num [bodyB]⟩, ?_, ?_⟩
  · rw [hmag, hmass]
  · rw [hmag, scenario_distance, hmass]
    unfold G
    norm_num

/-- C1, amended: for bodies that do not overlap (the distance is below neither
radius), at a positive distance and with the second mass nonzero, the
magnitude of `gravacc(first, second)` is `G * second.mass / distance`. -/
theorem gravacc_magnitude_over_distance (frst scnd : Circle)
    (h1 : ¬ (scnd.position - frst.position).magnitude < frst.radius)
    (h2 : ¬ (scnd.position - frst.position).magnitude < scnd.radius)
    (_hm : scnd.mass ≠ 0)
    (hd : 0 < (scnd.position - frst.position).magnitude) :
    (gravacc frst scnd).magnitude =
      G * (scnd.mass : ℝ) / (scnd.position - frst.position).magnitude :=
  gravacc_magnitude_of_not_cutoff frst scnd hd (not_or.mpr ⟨h1, h2⟩)

/-- C1, amended, at the scenario: two bodies of mass 1e9 and radius 10 placed
100 apart on the x-axis give the magnitude `G * 1e9 / 100`. -/
theorem gravacc_magnitude_over_distance_witness :
    (¬ (bodyB.position - bodyA.position).magnitude < bodyA.radius ∧
      ¬ (bodyB.position - bodyA.position).magnitude < bodyB.radius ∧
      bodyB.mass ≠ 0 ∧ 0 < (bodyB.position - bodyA.position).magnitude) ∧
    (gravacc bodyA bodyB).magnitude = G * (1000000000 : ℕ) / 100 := by
  have hA : ¬ (bodyB.position - bodyA.position).magnitude < bodyA.radius := by
    rw [scenario_distance]; norm_num [bodyA]
  have hB : ¬ (bodyB.position - bodyA.position).magnitude < bodyB.radius := by
    rw [scenario_distance]; norm_num [bodyB]
  have hm : bodyB.mass ≠ 0 := by norm_num [bodyB]
  have hpos : 0 < (bodyB.position - bodyA.position).magnitude := by
    rw [scenario_distance]; norm_num
  have h := gravacc_magnitude_over_distance bodyA bodyB hA hB hm hpos
  rw [scenario_distance] at h
  exact ⟨⟨hA, hB, hm, hpos⟩, h⟩

theorem gravaccChecked_eq_none_iff (frst scnd : Circle) :
    gravaccChecked frst scnd = none ↔
      (scnd.position - frst.position).magnitude = 0 ∧ frst.radius ≤ 0 ∧ scnd.radius ≤ 0 := by
  unfold gravaccChecked
  simp only
  by_cases hcut : (scnd.position - frst.position).magnitude < frst.radius ∨
      (scnd.position - frst.position).magnitude < scnd.radius
  · rw [if_pos hcut]
    constructor
    · intro h
      exact absurd h (by simp)
    · rintro ⟨h0, h1, h2⟩
      rcases hcut with h | h <;> linarith
  · rw [if_neg hcut]
    rw [not_or, not_lt, not_lt] at hcut
    by_cases hz : (scnd.position - frst.position).magnitude ^ 2 = 0
    · rw [if_pos hz]
      have h0 : (scnd.position - frst.position).magnitude = 0 := pow_eq_zero_iff two_ne_zero |>.mp hz
      simp only [true_iff]
      exact ⟨h0, by linarith [hcut.1], by linarith [hcut.2]⟩
    · rw [if_neg hz]
      constructor
      · intro h
        exact absurd h (by simp)
      · rintro ⟨h0, -, -⟩
        exact absurd (by rw [h0]; norm_num) hz

theorem gravaccChecked_eq_some (frst scnd : Circle) (v : Vector2D)
    (h : gravaccChecked frst scnd = some v) : v = gravacc frst scnd := by
  unfold gravaccChecked at h
  simp only at h
  by_cases hcut : (scnd.position - frst.position).magnitude < frst.radius ∨
      (scnd.position - frst.position).magnitude < scnd.radius
  · rw [if_pos hcut] at h
    rw [gravacc_of_cutoff frst scnd hcut, ← Option.some.inj h]
    exact Vector2D.mul_zero_scalar _
  · rw [if_neg hcut] at h
    by_cases hz : (scnd.position - frst.position).magnitude ^ 2 = 0
    · rw [if_pos hz] at h
      exact absurd h (by simp)
    · rw [if_neg hz] at h
      rw [gravacc_of_not_cutoff frst scnd hcut, ← Option.some.inj h]

/-- C9. For every pair of bodies with at least one strictly positive radius,
`gravacc` never divides by zero: the checked kernel returns the value of
`gravacc`, the inverse-square branch is reached only at a positive distance,
and coincident bodies take the cutoff branch. The radius cutoff is the only
guard: the division by zero happens exactly for coincident bodies whose radii
are both at most zero, as for two default circles. -/
theorem gravacc_division_guard :
    (∀ frst scnd : Circle, 0 < frst.radius ∨ 0 < scnd.radius →
      gravaccChecked frst scnd = some (gravacc frst scnd) ∧
      (¬ ((scnd.position - frst.position).magnitude < frst.radius ∨
          (scnd.position - frst.position).magnitude < scnd.radius) →
        frst.radius ≤ (scnd.position - frst.position).magnitude ∧
        scnd.radius ≤ (scnd.position - frst.position).magnitude ∧
        0 < (scnd.position - frst.position).magnitude ∧
        (scnd.position - frst.position).magnitude ^ 2 ≠ 0) ∧
      ((scnd.position - frst.position).magnitude = 0 →
        ((scnd.position - frst.position).magnitude < frst.radius ∨
          (scnd.position - frst.position).magnitude < scnd.radius))) ∧
    (∀ frst scnd : Circle, gravaccChecked frst scnd = none ↔
      (scnd.position - frst.position).magnitude = 0 ∧ frst.radius ≤ 0 ∧ scnd.radius ≤ 0) ∧
    gravaccChecked (default : Circle) (default : Circle) = none := by
  refine ⟨?_, gravaccChecked_eq_none_iff, ?_⟩
  · intro frst scnd hr
    have hnn := Vector2D.magnitude_nonneg (scnd.position - frst.position)
    refine ⟨?_, ?_, ?_⟩
    · cases hc : gravaccChecked frst scnd with
      | none =>
        have h := (gravaccChecked_eq_none_iff frst scnd).mp hc
        rcases hr with h1 | h1 <;> linarith [h.2.1, h.2.2]
      | some v => rw [gravaccChecked_eq_some frst scnd v hc]
    · intro hcut
      rw [not_or, not_lt, not_lt] at hcut
      have hpos : 0 < (scnd.position - frst.position).magnitude := by
        rcases hr with h1 | h1
        · exact lt_of_lt_of_le h1 hcut.1
        · exact lt_of_lt_of_le h1 hcut.2
      exact ⟨hcut.1, hcut.2, hpos, pow_ne_zero 2 hpos.ne'⟩
    · intro h0
      rw [h0]
      exact hr
  · rw [gravaccChecked_eq_none_iff]
    refine ⟨?_, le_refl _, le_refl _⟩
    rw [Vector2D.magnitude_eq_zero_iff, Vector2D.sub_eq_zero_iff]

/-- C9, at concrete inputs: two coincident bodies of radius 10 take the cutoff
branch and the checked kernel returns the zero vector. -/
theorem gravacc_division_guard_witness :
    (0 < bodyA.radius ∨ 0 < bodyA.radius) ∧
    gravaccChecked bodyA bodyA = some (gravacc bodyA bodyA) ∧
    gravacc bodyA bodyA = 0 := by
  have hr : 0 < bodyA.radius ∨ 0 < bodyA.radius := Or.inl (by norm_num [bodyA])
  have h := gravacc_division_guard.1 bodyA bodyA hr
  have h0 : (bodyA.position - bodyA.position).magnitude = 0 := by
    rw [Vector2D.magnitude_eq_zero_iff, Vector2D.sub_eq_zero_iff]
  exact ⟨hr, h.1, gravacc_of_cutoff bodyA bodyA (h.2.2 h0)⟩

/-- C10. Newton's third law for the pairwise kernel: for two bodies `A`, `B` at
distinct positions, `gravacc(A, B)` scaled by the mass of `A` and
`gravacc(B, A)` scaled by the mass of `B` are opposite vectors: each component
of the first is the negation of that of the second, and their sum is the zero
vector. -/
theorem gravacc_newton_third (A B : Circle) (_h : A.position ≠ B.position) :
    (gravacc A B * (A.mass : ℝ)).x = -(gravacc B A * (B.mass : ℝ)).x ∧
    (gravacc A B * (A.mass : ℝ)).y = -(gravacc B A * (B.mass : ℝ)).y ∧
    gravacc A B * (A.mass : ℝ) + gravacc B A * (B.mass : ℝ) = 0 := by
  have hsym : (A.position - B.position).magnitude = (B.position - A.position).magnitude :=
    Vector2D.magnitude_sub_comm _ _
  have hxy : (gravacc A B * (A.mass : ℝ)).x = -(gravacc B A * (B.mass : ℝ)).x ∧
      (gravacc A B * (A.mass : ℝ)).y = -(gravacc B A * (B.mass : ℝ)).y := by
    by_cases hcut : (B.position - A.position).magnitude < A.radius ∨
        (B.position - A.position).magnitude < B.radius
    · have hcut2 : (A.position - B.position).magnitude < B.radius ∨
          (A.position - B.position).magnitude < A.radius := by
        rw [hsym]; exact hcut.symm
      rw [gravacc_of_cutoff A B hcut, gravacc_of_cutoff B A hcut2]
      simp
    · have hcut2 : ¬ ((A.position - B.position).magnitude < B.radius ∨
          (A.position - B.position).magnitude < A.radius) := by
        rw [hsym]; exact fun h => hcut h.symm
      rw [gravacc_of_not_cutoff A B hcut, gravacc_of_not_cutoff B A hcut2, hsym]
      simp only [Vector2D.mul_x, Vector2D.mul_y, Vector2D.sub_x, Vector2D.sub_y]
      constructor <;> ring
  obtain ⟨hx, hy⟩ := hxy
  refine ⟨hx, hy, ?_⟩
  ext
  · rw [Vector2D.add_x, hx]; simp
  · rw [Vector2D.add_y, hy]; simp

/-- C10, at the two bodies of the scenario. -/
theorem gravacc_newton_third_witness :
    bodyA.position ≠ bodyB.position ∧
    gravacc bodyA bodyB * (bodyA.mass : ℝ) + gravacc bodyB bodyA * (bodyB.mass : ℝ) = 0 := by
  have h : bodyA.position ≠ bodyB.position := by
    intro e
    have hx := congrArg Vector2D.x e
    norm_num [bodyA, bodyB] at hx
  exact ⟨h, (gravacc_newton_third bodyA bodyB h).2.2⟩

/-! ## The update loop -/

theorem advance_acc (c : Circle) (a : Vector2D) : (advance c a).acc = a := rfl

theorem advance_velocity (c : Circle) (a : Vector2D) :
    (advance c a).velocity = a + c.velocity := rfl

theorem advance_position (c : Circle) (a : Vector2D) :
    (advance c a).position = (a + c.velocity) + c.position := rfl

theorem advance_radius (c : Circle) (a : Vector2D) : (advance c a).radius = c.radius := rfl

theorem advance_mass (c : Circle) (a : Vector2D) : (advance c a).mass = c.mass := rfl

theorem length_updateCircle (circles : List Circle) (i : ℕ) :
    (updateCircle circles i).length = circles.length := by
  unfold updateCircle
  split <;> simp

theorem sweep_zero (circles : List Circle) : sweep circles 0 = circles := rfl

theorem sweep_succ (circles : List Circle) (m : ℕ) :
    sweep circles (m + 1) = updateCircle (sweep circles m) m := by
  unfold sweep
  rw [List.range_succ, List.foldl_append]
  rfl

theorem length_sweep (circles : List Circle) (m : ℕ) :
    (sweep circles m).length = circles.length := by
  induction m with
  | zero => rfl
  | succ m ih => rw [sweep_succ, length_updateCircle, ih]

theorem length_update (circles : List Circle) : (update circles).length = circles.length :=
  length_sweep circles circles.length

theorem updateCircle_getElem?_ne (circles : List Circle) (i j : ℕ) (h : i ≠ j) :
    (updateCircle circles i)[j]? = circles[j]? := by
  unfold updateCircle
  split
  · rfl
  · rw [List.getElem?_set_ne h]

theorem updateCircle_getElem?_self (circles : List Circle) (i : ℕ) (c : Circle)
    (h : circles[i]? = some c) :
    (updateCircle circles i)[i]? = some (advance c (accumulate circles i c)) := by
  have hi : i < circles.length := (List.getElem?_eq_some.mp h).1
  unfold updateCircle
  rw [h]
  simp only
  rw [List.getElem?_set_self hi]

theorem sweep_getElem?_of_le (circles : List Circle) (m j : ℕ) (h : m ≤ j) :
    (sweep circles m)[j]? = circles[j]? := by
  induction m with
  | zero => rfl
  | succ m ih =>
    rw [sweep_succ, updateCircle_getElem?_ne _ _ _ (by omega), ih (by omega)]

theorem sweep_getElem?_of_lt (circles : List Circle) (m j : ℕ) (h : j < m) :
    (sweep circles m)[j]? = (sweep circles (j + 1))[j]? := by
  induction m with
  | zero => omega
  | succ m ih =>
    rcases Nat.lt_succ_iff_lt_or_eq.mp h with h1 | h1
    · rw [sweep_succ, updateCircle_getElem?_ne _ _ _ (by omega), ih h1]
    · rw [h1]

theorem update_getElem?_of_lt (circles : List Circle) (j : ℕ) (h : j < circles.length) :
    (update circles)[j]? = (sweep circles (j + 1))[j]? :=
  sweep_getElem?_of_lt circles circles.length j h

theorem sweep_getElem?_eq_ite (circles : List Circle) (k j : ℕ) (hk : k ≤ circles.length) :
    (sweep circles k)[j]? = if j < k then (update circles)[j]? else circles[j]? := by
  split_ifs with h
  · rw [sweep_getElem?_of_lt circles k j h, update_getElem?_of_lt circles j (by omega)]
  · exact sweep_getElem?_of_le circles k j (by omega)

theorem update_getElem?_eq_advance (circles : List Circle) (k : ℕ) (c : Circle)
    (h : circles[k]? = some c) :
    (update circles)[k]? = some (advance c (accumulate (sweep circles k) k c)) := by
  have hk : k < circles.length := (List.getElem?_eq_some.mp h).1
  rw [update_getElem?_of_lt circles k hk, sweep_succ]
  apply updateCircle_getElem?_self
  rw [sweep_getElem?_of_le circles k k (le_refl k), h]

theorem foldl_skip_enumFrom (i : ℕ) (g : Circle → Vector2D) (l : List Circle) (s : ℕ)
    (a0 : Vector2D) :
    (l.enumFrom s).foldl
        (fun acceleration (p : ℕ × Circle) =>
          if i ≠ p.1 then g p.2 + acceleration else acceleration) a0 =
      a0 + ∑ j ∈ Finset.range l.length, (if i ≠ s + j then g (l.getD j default) else 0) := by
  induction l generalizing s a0 with
  | nil => simp
  | cons x xs ih =>
    rw [List.enumFrom_cons, List.foldl_cons, ih, List.length_cons, Finset.sum_range_succ']
    have hidx : ∀ j, s + 1 + j = s + (j + 1) := fun j => by omega
    simp only [hidx, List.getD_cons_succ, List.getD_cons_zero, add_zero]
    by_cases hs : i ≠ s
    · simp only [if_pos hs]
      rw [add_comm (g x) a0, add_assoc, add_comm (g x)]
    · simp only [if_neg hs]
      rw [add_zero]

theorem accumulate_eq_sum (circles : List Circle) (i : ℕ) (c : Circle) :
    accumulate circles i c =
      ∑ j ∈ (Finset.range circles.length).erase i, gravacc c (circles.getD j default) := by
  unfold accumulate List.enum
  rw [foldl_skip_enumFrom, zero_add, ← Finset.filter_ne, Finset.sum_filter]
  simp only [zero_add]

theorem foldl_skip_enumFrom_of_lt (i : ℕ) (g : Circle → Vector2D) (l : List Circle) (s : ℕ)
    (a0 : Vector2D) (h : i < s) :
    (l.enumFrom s).foldl
        (fun acceleration (p : ℕ × Circle) =>
          if i ≠ p.1 then g p.2 + acceleration else acceleration) a0 =
      a0 + (l.map g).sum := by
  induction l generalizing s a0 with
  | nil => simp
  | cons x xs ih =>
    rw [List.enumFrom_cons, List.foldl_cons, ih (s + 1) _ (by omega), List.map_cons,
      List.sum_cons]
    have hs : i ≠ s := by omega
    simp only [if_pos hs]
    rw [add_comm (g x) a0, add_assoc]

theorem accumulate_append (front back : List Circle) (i : ℕ) (c : Circle)
    (h : i < front.length) :
    accumulate (front ++ back) i c =
      accumulate front i c + (back.map (gravacc c)).sum := by
  unfold accumulate List.enum
  rw [List.enumFrom_append, List.foldl_append, zero_add]
  exact foldl_skip_enumFrom_of_lt i (gravacc c) back front.length _ h

theorem accumulate_append_perm (front back back' : List Circle) (i : ℕ) (c : Circle)
    (h : i < front.length) (hp : back.Perm back') :
    accumulate (front ++ back) i c = accumulate (front ++ back') i c := by
  rw [accumulate_append front back i c h, accumulate_append front back' i c h,
    (hp.map (gravacc c)).sum_eq]

theorem update_getD_eq_advance (circles : List Circle) (k : ℕ) (hk : k < circles.length) :
    (update circles).getD k default =
      advance (circles.getD k default)
        (accumulate (sweep circles k) k (circles.getD k default)) := by
  have h : circles[k]? = some (circles.getD k default) := by
    rw [List.getD_eq_getElem?_getD, List.getElem?_eq_getElem hk]
    rfl
  rw [List.getD_eq_getElem?_getD (update circles), update_getElem?_eq_advance circles k _ h]
  rfl

theorem update_nil : update [] = [] := rfl

theorem update_singleton (c : Circle) : update [c] = [advance c 0] := by
  have h : update [c] = updateCircle [c] 0 := sweep_succ [c] 0
  rw [h]
  unfold updateCircle
  simp only [List.getElem?_cons_zero, List.set_cons_zero]
  rfl

theorem update_pair (a b : Circle) :
    update [a, b] =
      [advance a (gravacc a b + 0), advance b (gravacc b (advance a (gravacc a b + 0)) + 0)] := by
  have h : update [a, b] = updateCircle (updateCircle [a, b] 0) 1 := by
    show sweep [a, b] 2 = _
    rw [sweep_succ, sweep_succ, sweep_zero]
  have h0 : updateCircle [a, b] 0 = [advance a (gravacc a b + 0), b] := by
    unfold updateCircle
    simp only [List.getElem?_cons_zero, List.set_cons_zero]
    rfl
  rw [h, h0]
  unfold updateCircle
  simp only [List.getElem?_cons_succ, List.getElem?_cons_zero, List.set_cons_succ,
    List.set_cons_zero]
  rfl

/-- C8. While the run flag is off, any number `n` of frames leaves the body
list unchanged: every body keeps its position, velocity and acceleration. -/
theorem frames_paused_unchanged (circles : List Circle) (n : ℕ) :
    frames false n circles = circles := by
  induction n with
  | zero => rfl
  | succ n ih =>
    show frames false n (frame false circles) = circles
    exact ih

/-- C5, refuted as stated: a single body at the origin with velocity `(1, 0)`
is moved to `(1, 0)` by one running step, so the step is not a no-op. -/
theorem update_single_body_counterexample :
    update [(⟨⟨0, 0⟩, ⟨1, 0⟩, ⟨0, 0⟩, 10, 1000000000⟩ : Circle)] =
        [⟨⟨1, 0⟩, ⟨1, 0⟩, ⟨0, 0⟩, 10, 1000000000⟩] ∧
      update [(⟨⟨0, 0⟩, ⟨1, 0⟩, ⟨0, 0⟩, 10, 1000000000⟩ : Circle)] ≠
        [⟨⟨0, 0⟩, ⟨1, 0⟩, ⟨0, 0⟩, 10, 1000000000⟩] := by
  have h : update [(⟨⟨0, 0⟩, ⟨1, 0⟩, ⟨0, 0⟩, 10, 1000000000⟩ : Circle)] =
      [⟨⟨1, 0⟩, ⟨1, 0⟩, ⟨0, 0⟩, 10, 1000000000⟩] := by
    rw [update_singleton]
    congr 1
    ext <;> simp [advance]
  refine ⟨h, ?_⟩
  rw [h]
  intro e
  have hx := congrArg (fun l : List Circle => (l.getD 0 default).position.x) e
  norm_num at hx

/-- C5, amended: a step on the empty list returns the empty list; a step on a
one-body list sets the acceleration of the body to `(0, 0)`, keeps its
velocity and adds the velocity to its position, so it is a no-op exactly when
the velocity and the stored acceleration of the body are zero. -/
theorem update_zero_or_one_body :
    update [] = [] ∧
    ∀ c : Circle,
      update [c] =
          [{ c with acc := ⟨0, 0⟩, velocity := c.velocity,
                    position := c.velocity + c.position }] ∧
        (update [c] = [c] ↔ c.velocity = ⟨0, 0⟩ ∧ c.acc = ⟨0, 0⟩) := by
  refine ⟨update_nil, fun c => ?_⟩
  have h : update [c] =
      [{ c with acc := ⟨0, 0⟩, velocity := c.velocity,
                position := c.velocity + c.position }] := by
    rw [update_singleton]
    congr 1
    ext <;> simp [advance]
  refine ⟨h, ?_⟩
  rw [h]
  constructor
  · intro e
    have e1 := List.head_eq_of_cons_eq e
    have hacc : c.acc = ⟨0, 0⟩ := (congrArg Circle.acc e1).symm
    have hpos : c.velocity + c.position = c.position := congrArg Circle.position e1
    have hx := congrArg Vector2D.x hpos
    have hy := congrArg Vector2D.y hpos
    simp only [Vector2D.add_x, Vector2D.add_y] at hx hy
    refine ⟨?_, hacc⟩
    ext
    · show c.velocity.x = 0
      linarith
    · show c.velocity.y = 0
      linarith
  · rintro ⟨hv, ha⟩
    congr 1
    ext <;> simp [hv, ha]

/-- C7. For every body of the list, one running step sets the new velocity to
the old velocity plus the newly stored acceleration, and then the new
position to the old position plus the new velocity; a body whose velocity
was zero has its velocity equal to its acceleration after the step. -/
theorem update_velocity_then_position (circles : List Circle) (k : ℕ)
    (hk : k < circles.length) :
    ((update circles).getD k default).velocity =
        (circles.getD k default).velocity + ((update circles).getD k default).acc ∧
      ((update circles).getD k default).position =
        (circles.getD k default).position + ((update circles).getD k default).velocity ∧
      ((circles.getD k default).velocity = ⟨0, 0⟩ →
        ((update circles).getD k default).velocity =
          ((update circles).getD k default).acc) := by
  rw [update_getD_eq_advance circles k hk]
  refine ⟨?_, ?_, ?_⟩
  · rw [advance_velocity, advance_acc, add_comm]
  · rw [advance_position, advance_velocity, add_comm]
  · intro h0
    rw [advance_velocity, advance_acc, h0]
    exact add_zero _

/-- C7, at the second body of the scenario list. -/
theorem update_velocity_then_position_witness :
    1 < [bodyA, bodyB].length ∧
      ((update [bodyA, bodyB]).getD 1 default).velocity =
        ((update [bodyA, bodyB]).getD 1 default).acc ∧
      ((update [bodyA, bodyB]).getD 1 default).position =
        bodyB.position + ((update [bodyA, bodyB]).getD 1 default).velocity := by
  have hk : 1 < [bodyA, bodyB].length := by decide
  have h := update_velocity_then_position [bodyA, bodyB] 1 hk
  exact ⟨hk, h.2.2 rfl, h.2.1⟩

/-- C6. After one running step the acceleration stored on body `k` is the sum
of `gravacc(body k as before the step, body j)` over all indices `j ≠ k` of
the list, with body `j` in its already updated state for `j < k` and in its
state before the step for `j > k`. Only the index `k` is left out, whatever
the values of the other bodies are; the list keeps its length. -/
theorem update_acc_eq_sum (circles : List Circle) (k : ℕ) (hk : k < circles.length) :
    (update circles).length = circles.length ∧
      ((update circles).getD k default).acc =
        ∑ j ∈ (Finset.range circles.length).erase k,
          gravacc (circles.getD k default)
            (if j < k then (update circles).getD j default else circles.getD j default) := by
  refine ⟨length_update circles, ?_⟩
  rw [update_getD_eq_advance circles k hk, advance_acc, accumulate_eq_sum, length_sweep]
  refine Finset.sum_congr rfl fun j _ => ?_
  congr 1
  rw [List.getD_eq_getElem?_getD, sweep_getElem?_eq_ite circles k j hk.le]
  split_ifs <;> simp

/-- C6, at a list of two bodies with identical members: the acceleration of
the first is the single contribution of the second. -/
theorem update_acc_eq_sum_witness :
    0 < [bodyA, bodyA].length ∧
      ((update [bodyA, bodyA]).getD 0 default).acc =
        ∑ j ∈ (Finset.range [bodyA, bodyA].length).erase 0,
          gravacc ([bodyA, bodyA].getD 0 default)
            (if j < 0 then (update [bodyA, bodyA]).getD j default
              else [bodyA, bodyA].getD j default) := by
  have hk : 0 < [bodyA, bodyA].length := by decide
  exact ⟨hk, (update_acc_eq_sum [bodyA, bodyA] 0 hk).2⟩

theorem sweep_append_perm (front back back' : List Circle) (hp : back.Perm back') (m : ℕ)
    (hm : m ≤ front.length) :
    ∃ done : List Circle, done.length = front.length ∧
      sweep (front ++ back) m = done ++ back ∧ sweep (front ++ back') m = done ++ back' := by
  induction m with
  | zero => exact ⟨front, rfl, rfl, rfl⟩
  | succ m ih =>
    obtain ⟨done, hlen, h1, h2⟩ := ih (by omega)
    have hlt : m < done.length := by omega
    have hget : ∀ l : List Circle, (done ++ l)[m]? = some done[m] := fun l => by
      rw [List.getElem?_append_left hlt, List.getElem?_eq_getElem hlt]
    refine ⟨done.set m (advance done[m] (accumulate (done ++ back) m done[m])), ?_, ?_, ?_⟩
    · rw [List.length_set, hlen]
    · rw [sweep_succ, h1]
      unfold updateCircle
      rw [hget back]
      simp only
      rw [List.set_append_left m _ hlt]
    · rw [sweep_succ, h2]
      unfold updateCircle
      rw [hget back']
      simp only
      rw [List.set_append_left m _ hlt, accumulate_append_perm done back back' m _ hlt hp]

theorem update_take_eq_sweep_take (circles : List Circle) (n : ℕ) (hn : n ≤ circles.length) :
    (update circles).take n = (sweep circles n).take n := by
  apply List.ext_getElem?
  intro j
  rw [List.getElem?_take, List.getElem?_take]
  split_ifs with hj
  · rw [update_getElem?_of_lt circles j (by omega), sweep_getElem?_of_lt circles n j hj]
  · rfl

theorem gravacc_on_x_axis (frst scnd : Circle) (hf : frst.position.y = 0)
    (hs : scnd.position.y = 0)
    (h1 : frst.radius ≤ |scnd.position.x - frst.position.x|)
    (h2 : scnd.radius ≤ |scnd.position.x - frst.position.x|) :
    gravacc frst scnd =
      ⟨(scnd.position.x - frst.position.x) *
        (G * ((scnd.mass : ℝ) / (scnd.position.x - frst.position.x) ^ 2)), 0⟩ := by
  have hd : scnd.position - frst.position = ⟨scnd.position.x - frst.position.x, 0⟩ := by
    ext <;> simp [hf, hs]
  have hmag : (scnd.position - frst.position).magnitude =
      |scnd.position.x - frst.position.x| := by
    rw [hd, Vector2D.magnitude_x_axis]
  have hcut : ¬ ((scnd.position - frst.position).magnitude < frst.radius ∨
      (scnd.position - frst.position).magnitude < scnd.radius) := by
    rw [hmag, not_or, not_lt, not_lt]
    exact ⟨h1, h2⟩
  rw [gravacc_of_not_cutoff frst scnd hcut, hmag, sq_abs, hd]
  ext <;> simp

/-- C4, amended: for a body list `front ++ back`, permuting the bodies of
`back` (those that come after the bodies of `front` in the list) does not
change the new position, velocity and acceleration that one running step
gives to the bodies of `front`. -/
theorem update_front_of_perm_back (front back back' : List Circle) (hp : back.Perm back') :
    (update (front ++ back)).take front.length =
      (update (front ++ back')).take front.length := by
  obtain ⟨done, hlen, h1, h2⟩ := sweep_append_perm front back back' hp front.length le_rfl
  rw [update_take_eq_sweep_take _ _ (by simp), update_take_eq_sweep_take _ _ (by simp), h1, h2,
    ← hlen, List.take_left, List.take_left]

/-- C4, amended, at a concrete input: the first of three bodies gets the same
update whether the other two come in one order or the other. -/
theorem update_front_of_perm_back_witness :
    [bodyB, bodyC].Perm [bodyC, bodyB] ∧
      (update ([bodyA] ++ [bodyB, bodyC])).take [bodyA].length =
        (update ([bodyA] ++ [bodyC, bodyB])).take [bodyA].length := by
  have hp : [bodyB, bodyC].Perm [bodyC, bodyB] := List.Perm.swap _ _ _
  exact ⟨hp, update_front_of_perm_back [bodyA] _ _ hp⟩

theorem scenario_update_AB :
    ((update [bodyA, bodyB]).map fun c => c.acc.x) =
      [667 / 1000000,
        (667 / 1000000 - 100) * (G * (1000000000 / (667 / 1000000 - 100) ^ 2))] := by
  have hAB : gravacc bodyA bodyB = ⟨667 / 1000000, 0⟩ := by
    rw [gravacc_on_x_axis bodyA bodyB rfl rfl (by norm_num [bodyA, bodyB])
      (by norm_num [bodyA, bodyB])]
    ext <;> norm_num [bodyA, bodyB, G]
  have hpos : (advance bodyA (gravacc bodyA bodyB + 0)).position = ⟨667 / 1000000, 0⟩ := by
    rw [advance_position, hAB]
    ext <;> simp [bodyA]
  have hrad : (advance bodyA (gravacc bodyA bodyB + 0)).radius = 10 := rfl
  have hmass : (advance bodyA (gravacc bodyA bodyB + 0)).mass = 1000000000 := rfl
  have hBA : gravacc bodyB (advance bodyA (gravacc bodyA bodyB + 0)) =
      ⟨(667 / 1000000 - 100) * (G * (1000000000 / (667 / 1000000 - 100) ^ 2)), 0⟩ := by
    rw [gravacc_on_x_axis bodyB _ rfl (by rw [hpos])
      (by rw [hpos]; norm_num [bodyB, abs_of_neg])
      (by rw [hpos, hrad]; norm_num [bodyB, abs_of_neg])]
    rw [hpos, hmass]
    ext <;> norm_num [bodyB]
  rw [update_pair]
  simp only [List.map_cons, List.map_nil, advance_acc]
  rw [hBA, hAB]
  simp only [Vector2D.add_x, Vector2D.zero_x, add_zero]

theorem scenario_update_BA :
    ((update [bodyB, bodyA]).map fun c => c.acc.x) =
      [-(667 / 1000000),
        (100 - 667 / 1000000) * (G * (1000000000 / (100 - 667 / 1000000) ^ 2))] := by
  have hBA : gravacc bodyB bodyA = ⟨-(667 / 1000000), 0⟩ := by
    rw [gravacc_on_x_axis bodyB bodyA rfl rfl (by norm_num [bodyA, bodyB])
      (by norm_num [bodyA, bodyB])]
    ext <;> norm_num [bodyA, bodyB, G]
  have hpos : (advance bodyB (gravacc bodyB bodyA + 0)).position =
      ⟨100 - 667 / 1000000, 0⟩ := by
    rw [advance_position, hBA]
    ext <;> norm_num [bodyB]
  have hrad : (advance bodyB (gravacc bodyB bodyA + 0)).radius = 10 := rfl
  have hmass : (advance bodyB (gravacc bodyB bodyA + 0)).mass = 1000000000 := rfl
  have hAB : gravacc bodyA (advance bodyB (gravacc bodyB bodyA + 0)) =
      ⟨(100 - 667 / 1000000) * (G * (1000000000 / (100 - 667 / 1000000) ^ 2)), 0⟩ := by
    rw [gravacc_on_x_axis bodyA _ rfl (by rw [hpos])
      (by rw [hpos]; norm_num [bodyA, abs_of_pos])
      (by rw [hpos, hrad]; norm_num [bodyA, abs_of_pos])]
    rw [hpos, hmass]
    ext <;> norm_num [bodyA]
  rw [update_pair]
  simp only [List.map_cons, List.map_nil, advance_acc]
  rw [hAB, hBA]
  simp only [Vector2D.add_x, Vector2D.zero_x, add_zero]

/-- C4, refuted as stated: for the two bodies of the scenario, stepping the
list in the order `[B, A]` gives body `B` the acceleration `-(G * 1e9 / 100)`
along x, while stepping `[A, B]` gives it a different one (computed against
the already moved `A`); the two results are not permutations of each other. -/
theorem update_order_counterexample :
    [bodyB, bodyA].Perm [bodyA, bodyB] ∧
      ((update [bodyB, bodyA]).getD 0 default).acc.x = -(G * 1000000000 / 100) ∧
      ((update [bodyA, bodyB]).getD 1 default).acc.x ≠ -(G * 1000000000 / 100) ∧
      ¬ (update [bodyB, bodyA]).Perm (update [bodyA, bodyB]) := by
  have hAB := scenario_update_AB
  have hBA := scenario_update_BA
  have hG : G * 1000000000 / 100 = 667 / 1000000 := by
    unfold G
    norm_num
  have hne : (667 / 1000000 - 100) * (G * (1000000000 / (667 / 1000000 - 100) ^ 2)) ≠
      -(667 / 1000000 : ℝ) := by
    unfold G
    norm_num
  have h0 : ((update [bodyB, bodyA]).getD 0 default).acc.x = -(667 / 1000000) := by
    have h := congrArg (fun l : List ℝ => l.getD 0 0) hBA
    simpa [update_pair] using h
  have h1 : ((update [bodyA, bodyB]).getD 1 default).acc.x =
      (667 / 1000000 - 100) * (G * (1000000000 / (667 / 1000000 - 100) ^ 2)) := by
    have h := congrArg (fun l : List ℝ => l.getD 1 0) hAB
    simpa [update_pair] using h
  refine ⟨List.Perm.swap _ _ _, ?_, ?_, ?_⟩
  · rw [h0, hG]
  · rw [h1, hG]
    exact hne
  · intro hperm
    have hmem : (-(667 / 1000000) : ℝ) ∈ (update [bodyA, bodyB]).map fun c => c.acc.x := by
      rw [← (hperm.map fun c => c.acc.x).mem_iff, hBA]
      exact List.mem_cons_self _ _
    rw [hAB] at hmem
    simp only [List.mem_cons, List.mem_singleton, List.not_mem_nil, or_false] at hmem
    rcases hmem with h | h
    · norm_num at h
    · exact hne h.symm

end

end NBody
